import Mathlib

/-!
Verification of the stack build orchestrator of gvallee/go_software_build.

The Go sources are shallowly embedded: Go strings become lists of
characters (the inputs of interest are ASCII, so byte indexing and
character indexing agree), Go maps become association lists (Go map
iteration order is unspecified; the models iterate in list order, and the
theorems carry uniqueness hypotheses that make the result independent of
the order), and external effects (filesystem checks, process execution)
become explicit parameters recording their results.
-/

namespace GoBuild

/-- Go strings, embedded as lists of characters. -/
abbrev GoStr := List Char

/-- Shorthand turning a Lean string literal into the embedded form. -/
def gs (s : String) : GoStr := s.data

/-- Go strings.Split with a one-character separator: splits around every
occurrence of the separator and always returns at least one piece. -/
def goSplitChar (sep : Char) : GoStr → List GoStr
  | [] => [[]]
  | c :: rest =>
    let r := goSplitChar sep rest
    if c = sep then [] :: r
    else (c :: r.headI) :: r.tail

/-- Go strings.Index: the first position where the needle occurs in the
haystack, none standing for the -1 of Go. -/
def goIndexOf (needle : GoStr) : GoStr → Option Nat
  | [] => if needle = [] then some 0 else none
  | c :: rest =>
    if needle.isPrefixOf (c :: rest) then some 0
    else (goIndexOf needle rest).map (fun n => n + 1)

/-- Go map read m[k] for string-valued maps: the zero value (the empty
string) when the key is absent. -/
def goMapGet (m : List (GoStr × GoStr)) (k : GoStr) : GoStr :=
  match m.find? (fun p => p.1 == k) with
  | some p => p.2
  | none => []

/-- Go two-valued map read: whether the key is present. -/
def goMapHas (m : List (GoStr × GoStr)) (k : GoStr) : Bool :=
  (m.find? (fun p => p.1 == k)).isSome

/-- Go map write m[k] = v: overwrite the entry when the key is present,
append it otherwise. -/
def goMapSet (m : List (GoStr × GoStr)) (k v : GoStr) : List (GoStr × GoStr) :=
  if goMapHas m k then m.map (fun p => if p.1 == k then (k, v) else p)
  else m ++ [(k, v)]

/-- Model of filepath.Join for the clean, slash-free path components this
repository joins: the two parts separated by one slash. -/
def goJoin (a b : GoStr) : GoStr := a ++ gs "/" ++ b

/- ----------------------------------------------------------------- -/
/- Reference resolver: Config.UpdateRefs of pkg/stack.               -/
/- ----------------------------------------------------------------- -/

/-- RefStartDelimiter of pkg/stack. -/
def RefStartDelimiter : GoStr := gs "@ref:"

/-- RefEndDelimiter of pkg/stack. -/
def RefEndDelimiter : GoStr := gs "@"

/-- The three resolution maps of stack.Config: InstalledComponents,
BuiltComponents and SrcComponents, keyed by component name. -/
structure StackMaps where
  installed : List (GoStr × GoStr)
  built : List (GoStr × GoStr)
  src : List (GoStr × GoStr)

/-- The errors UpdateRefs returns: the start delimiter is absent from the
token, or no end delimiter follows the start delimiter. -/
inductive RefErr where
  | missingStartDelim
  | missingEndDelim
deriving DecidableEq, Repr

/-- Outcome of a Go function returning (string, error): a value, an error,
or a runtime panic. -/
inductive GoResult (α : Type) where
  | ok (val : α)
  | err (e : RefErr)
  | panic
deriving DecidableEq, Repr

/-- One iteration of the loop of UpdateRefs over the keys of
InstalledComponents. The state is the pair (ref, token) of the two
variables the loop mutates: on a matching key the kind is looked up in the
matching map (three sequential conditionals, as in the source) and the
delimited span of the current token is replaced in place. -/
def updateRefsStep (cfg : StackMaps) (name : GoStr) (startIdx endIdx : Nat)
    (st : GoStr × GoStr) (compName : GoStr) : GoStr × GoStr :=
  if compName = name then
    let r1 := if st.1 = gs "install_dir" then goMapGet cfg.installed compName else st.1
    let r2 := if r1 = gs "build_dir" then goMapGet cfg.built compName else r1
    let r3 := if r2 = gs "src_dir" then goMapGet cfg.src compName else r2
    (r3, st.2.take startIdx ++ r3 ++ st.2.drop (endIdx + RefEndDelimiter.length))
  else st

/-- The delimited body of a reference token, as UpdateRefs slices it:
token[startIdx+len(start) : endIdx] with endIdx = e0 + startIdx + len(start). -/
def refBody (token : GoStr) (startIdx e0 : Nat) : GoStr :=
  (token.take (e0 + startIdx + RefStartDelimiter.length)).drop
    (startIdx + RefStartDelimiter.length)

/-- Tail of UpdateRefs once both delimiters are located: split the body at
its first underscore into component name and kind, then scan the
installed-components map and splice the resolved path into the token.
When the body holds no underscore the Go source slices with the index -1,
a runtime panic (slice bounds out of range). -/
def updateRefsBody (cfg : StackMaps) (token : GoStr) (startIdx e0 : Nat) : GoResult GoStr :=
  match goIndexOf (gs "_") (refBody token startIdx e0) with
  | none => .panic
  | some nameDelimiter =>
    .ok ((cfg.installed.map Prod.fst).foldl
      (updateRefsStep cfg ((refBody token startIdx e0).take nameDelimiter)
        startIdx (e0 + startIdx + RefStartDelimiter.length))
      ((refBody token startIdx e0).drop (nameDelimiter + 1), token)).2

/-- Tail of UpdateRefs once the start delimiter is located: look for the
next end delimiter after it, an error when absent. -/
def updateRefsAfterStart (cfg : StackMaps) (token : GoStr) (startIdx : Nat) : GoResult GoStr :=
  match goIndexOf RefEndDelimiter (token.drop (startIdx + RefStartDelimiter.length)) with
  | none => .err .missingEndDelim
  | some e0 => updateRefsBody cfg token startIdx e0

/-- Config.UpdateRefs of pkg/stack: find the start delimiter (error when
absent), then resolve the reference the token embeds. -/
def updateRefs (cfg : StackMaps) (token : GoStr) : GoResult GoStr :=
  match goIndexOf RefStartDelimiter token with
  | none => .err .missingStartDelim
  | some startIdx => updateRefsAfterStart cfg token startIdx

lemma updateRefs_start_none (cfg : StackMaps) (token : GoStr)
    (hs : goIndexOf RefStartDelimiter token = none) :
    updateRefs cfg token = .err .missingStartDelim := by
  unfold updateRefs
  rw [hs]

lemma updateRefs_start_some (cfg : StackMaps) (token : GoStr) (i : Nat)
    (hs : goIndexOf RefStartDelimiter token = some i) :
    updateRefs cfg token = updateRefsAfterStart cfg token i := by
  unfold updateRefs
  rw [hs]

lemma updateRefsAfterStart_none (cfg : StackMaps) (token : GoStr) (i : Nat)
    (he : goIndexOf RefEndDelimiter (token.drop (i + RefStartDelimiter.length)) = none) :
    updateRefsAfterStart cfg token i = .err .missingEndDelim := by
  unfold updateRefsAfterStart
  rw [he]

lemma updateRefsAfterStart_some (cfg : StackMaps) (token : GoStr) (i e0 : Nat)
    (he : goIndexOf RefEndDelimiter (token.drop (i + RefStartDelimiter.length)) = some e0) :
    updateRefsAfterStart cfg token i = updateRefsBody cfg token i e0 := by
  unfold updateRefsAfterStart
  rw [he]

lemma updateRefsBody_none (cfg : StackMaps) (token : GoStr) (i e0 : Nat)
    (hd : goIndexOf (gs "_") (refBody token i e0) = none) :
    updateRefsBody cfg token i e0 = .panic := by
  unfold updateRefsBody
  rw [hd]

lemma updateRefsBody_some (cfg : StackMaps) (token : GoStr) (i e0 d : Nat)
    (hd : goIndexOf (gs "_") (refBody token i e0) = some d) :
    updateRefsBody cfg token i e0 =
      .ok ((cfg.installed.map Prod.fst).foldl
        (updateRefsStep cfg ((refBody token i e0).take d)
          i (e0 + i + RefStartDelimiter.length))
        ((refBody token i e0).drop (d + 1), token)).2 := by
  unfold updateRefsBody
  rw [hd]

lemma foldl_updateRefsStep_not_found (cfg : StackMaps) (name : GoStr)
    (startIdx endIdx : Nat) (keys : List GoStr) (st : GoStr × GoStr)
    (h : name ∉ keys) :
    keys.foldl (updateRefsStep cfg name startIdx endIdx) st = st := by
  induction keys generalizing st with
  | nil => rfl
  | cons k ks ih =>
    have hk : k ≠ name := fun he => h (he ▸ List.mem_cons_self k ks)
    have hks : name ∉ ks := fun hm => h (List.mem_cons_of_mem k hm)
    simp only [List.foldl_cons, updateRefsStep, if_neg hk]
    exact ih st hks

lemma foldl_updateRefsStep_found (cfg : StackMaps) (name : GoStr)
    (startIdx endIdx : Nat) (k1 k2 : List GoStr) (st : GoStr × GoStr)
    (h1 : name ∉ k1) (h2 : name ∉ k2) :
    (k1 ++ name :: k2).foldl (updateRefsStep cfg name startIdx endIdx) st =
      updateRefsStep cfg name startIdx endIdx st name := by
  rw [List.foldl_append, foldl_updateRefsStep_not_found cfg name startIdx endIdx k1 st h1,
    List.foldl_cons]
  exact foldl_updateRefsStep_not_found cfg name startIdx endIdx k2 _ h2

lemma goMapGet_append_cons (m1 m2 : List (GoStr × GoStr)) (k v : GoStr)
    (h : k ∉ m1.map Prod.fst) :
    goMapGet (m1 ++ (k, v) :: m2) k = v := by
  induction m1 with
  | nil => simp [goMapGet]
  | cons p ps ih =>
    have hp : (p.1 == k) = false := by
      rw [beq_eq_false_iff_ne]
      intro he
      exact h (by simp [he])
    have hps : k ∉ ps.map Prod.fst := fun hm => h (by simp [hm])
    have hrec := ih hps
    unfold goMapGet at hrec ⊢
    rw [List.cons_append]
    simp only [List.find?_cons, hp]
    exact hrec

/-- Claim C3: resolving the token @ref:foo_install_dir@/lib against a
resolution map that records component foo at install directory /x yields
/x/lib with no error, and resolving a token whose referenced component
name is absent from the map returns the token unchanged with no error. -/
theorem C3_reference_resolution_roundtrip :
    (∀ (m1 m2 built srcm : List (GoStr × GoStr)),
      gs "foo" ∉ (m1 ++ m2).map Prod.fst →
      updateRefs ⟨m1 ++ (gs "foo", gs "/x") :: m2, built, srcm⟩
        (gs "@ref:foo_install_dir@/lib") = .ok (gs "/x/lib")) ∧
    (∀ (cfg : StackMaps) (token : GoStr) (i e0 d : Nat),
      goIndexOf RefStartDelimiter token = some i →
      goIndexOf RefEndDelimiter (token.drop (i + RefStartDelimiter.length)) = some e0 →
      goIndexOf (gs "_") (refBody token i e0) = some d →
      (refBody token i e0).take d ∉ cfg.installed.map Prod.fst →
      updateRefs cfg token = .ok token) := by
  constructor
  · intro m1 m2 built srcm h
    have h1 : gs "foo" ∉ m1.map Prod.fst := fun hm => h (by simp [hm])
    have h2 : gs "foo" ∉ m2.map Prod.fst := fun hm => h (by simp [hm])
    rw [updateRefs_start_some _ _ 0 (by decide),
      updateRefsAfterStart_some _ _ 0 15 (by decide),
      updateRefsBody_some _ _ 0 15 3 (by decide)]
    have hbody : refBody (gs "@ref:foo_install_dir@/lib") 0 15 = gs "foo_install_dir" := by
      decide
    rw [hbody]
    have htake : (gs "foo_install_dir").take 3 = gs "foo" := by decide
    have hdropname : (gs "foo_install_dir").drop (3 + 1) = gs "install_dir" := by decide
    rw [htake, hdropname]
    show GoResult.ok (((m1 ++ (gs "foo", gs "/x") :: m2).map Prod.fst).foldl
      (updateRefsStep _ (gs "foo") 0 (15 + 0 + RefStartDelimiter.length))
      (gs "install_dir", gs "@ref:foo_install_dir@/lib")).2 = GoResult.ok (gs "/x/lib")
    rw [List.map_append, List.map_cons]
    rw [foldl_updateRefsStep_found _ _ _ _ _ _ _ h1 h2]
    have hget : goMapGet (m1 ++ (gs "foo", gs "/x") :: m2) (gs "foo") = gs "/x" :=
      goMapGet_append_cons m1 m2 _ _ h1
    simp only [updateRefsStep, eq_self_iff_true, if_true, hget]
    rw [if_neg (by decide : ¬(gs "/x" = gs "build_dir"))]
    rw [if_neg (by decide : ¬(gs "/x" = gs "src_dir"))]
    decide
  · intro cfg token i e0 d hs he hd hnot
    rw [updateRefs_start_some _ _ i hs, updateRefsAfterStart_some _ _ i e0 he,
      updateRefsBody_some _ _ i e0 d hd,
      foldl_updateRefsStep_not_found _ _ _ _ _ _ hnot]

/-- Witness for claim C3 at concrete inputs: a one-entry map around foo,
and an absent component bar. -/
theorem C3_reference_resolution_roundtrip_witness :
    updateRefs ⟨[(gs "foo", gs "/x")], [], []⟩ (gs "@ref:foo_install_dir@/lib")
      = .ok (gs "/x/lib") ∧
    updateRefs ⟨[(gs "foo", gs "/x")], [], []⟩ (gs "@ref:bar_install_dir@/lib")
      = .ok (gs "@ref:bar_install_dir@/lib") :=
  ⟨C3_reference_resolution_roundtrip.1 [] [] [] [] (by decide),
   C3_reference_resolution_roundtrip.2 ⟨[(gs "foo", gs "/x")], [], []⟩
     (gs "@ref:bar_install_dir@/lib") 0 15 3 (by decide) (by decide) (by decide) (by decide)⟩

/-- Resolution maps with no component recorded. -/
def noComponents : StackMaps := ⟨[], [], []⟩

/-- Claim C8: a token without the start delimiter, or with the start
delimiter but no end delimiter after it, makes UpdateRefs return a
malformed-reference error. -/
theorem C8_missing_delimiters_error :
    (∀ (cfg : StackMaps) (token : GoStr),
      goIndexOf RefStartDelimiter token = none →
      updateRefs cfg token = .err .missingStartDelim) ∧
    (∀ (cfg : StackMaps) (token : GoStr) (i : Nat),
      goIndexOf RefStartDelimiter token = some i →
      goIndexOf RefEndDelimiter (token.drop (i + RefStartDelimiter.length)) = none →
      updateRefs cfg token = .err .missingEndDelim) :=
  ⟨fun cfg token hs => updateRefs_start_none cfg token hs,
   fun cfg token i hs he => by
    rw [updateRefs_start_some cfg token i hs, updateRefsAfterStart_none cfg token i he]⟩

/-- Witness for claim C8 at two concrete tokens, one per missing
delimiter. -/
theorem C8_missing_delimiters_error_witness :
    updateRefs noComponents (gs "no reference here") = .err .missingStartDelim ∧
    updateRefs noComponents (gs "x@ref:abc") = .err .missingEndDelim :=
  ⟨C8_missing_delimiters_error.1 noComponents (gs "no reference here") (by decide),
   C8_missing_delimiters_error.2 noComponents (gs "x@ref:abc") 1 (by decide) (by decide)⟩

/-- Counterexample to claim C10: the token @ref:foo@ holds both
delimiters, its body foo holds no underscore, and UpdateRefs panics on it
(the Go source slices the body with the index -1) instead of returning a
string or an error. -/
theorem C10_counterexample_panics_without_underscore :
    goIndexOf RefStartDelimiter (gs "@ref:foo@") = some 0 ∧
    goIndexOf RefEndDelimiter ((gs "@ref:foo@").drop (0 + RefStartDelimiter.length)) = some 3 ∧
    updateRefs noComponents (gs "@ref:foo@") = .panic := by decide

/-- Claim C10 as amended: UpdateRefs terminates on every input and
returns a string or an error, except that it panics exactly when the
token holds the start delimiter and a later end delimiter but the body
between them holds no underscore. -/
theorem C10_amended_totality_characterisation (cfg : StackMaps) (token : GoStr) :
    updateRefs cfg token = .panic ↔
      ∃ i e0, goIndexOf RefStartDelimiter token = some i ∧
        goIndexOf RefEndDelimiter (token.drop (i + RefStartDelimiter.length)) = some e0 ∧
        goIndexOf (gs "_") (refBody token i e0) = none := by
  constructor
  · intro h
    cases hs : goIndexOf RefStartDelimiter token with
    | none =>
      rw [updateRefs_start_none cfg token hs] at h
      exact GoResult.noConfusion h
    | some i =>
      cases he : goIndexOf RefEndDelimiter (token.drop (i + RefStartDelimiter.length)) with
      | none =>
        rw [updateRefs_start_some cfg token i hs, updateRefsAfterStart_none cfg token i he] at h
        exact GoResult.noConfusion h
      | some e0 =>
        cases hd : goIndexOf (gs "_") (refBody token i e0) with
        | none => exact ⟨i, e0, hs ▸ rfl, he, hd⟩
        | some d =>
          rw [updateRefs_start_some cfg token i hs,
            updateRefsAfterStart_some cfg token i e0 he,
            updateRefsBody_some cfg token i e0 d hd] at h
          exact GoResult.noConfusion h
  · rintro ⟨i, e0, hs, he, hd⟩
    rw [updateRefs_start_some cfg token i hs, updateRefsAfterStart_some cfg token i e0 he,
      updateRefsBody_none cfg token i e0 hd]

/- ----------------------------------------------------------------- -/
/- PATH accumulation across components: InstallStack of pkg/stack.   -/
/- ----------------------------------------------------------------- -/

/-- createNewPathForComp of pkg/stack: a fresh PATH entry with the
component bin directory prepended to the PATH of the calling process
(os.Getenv, passed here as the parameter osPath) and a trailing
literal $PATH. -/
def createNewPathForComp (compBinDir osPath : GoStr) : GoStr :=
  gs "PATH=" ++ compBinDir ++ gs ":" ++ osPath ++ gs ":$PATH"

/-- Key of an environment entry as InstallStack reads it: the first piece
of the split around the equals signs. -/
def envKey (e : GoStr) : GoStr := (goSplitChar '=' e).headI

/-- Whether an environment entry carries the key PATH. -/
def keyIsPath (e : GoStr) : Bool := envKey e == gs "PATH"

/-- Outcome of the scan of InstallStack over the accumulated environment
looking for a PATH entry to replace: an updated environment, no entry
found, or the Go panic when an entry has the key PATH but no equals sign
(tokens[1] is then out of range). -/
inductive PathUpdate where
  | updated (env : List GoStr)
  | noPathEntry
  | panicked
deriving DecidableEq

/-- The scan of InstallStack over the accumulated build environment:
replace the first entry whose key is PATH by the component bin directory
prepended to that entry's second piece, leaving every other entry in
place. -/
def replaceFirstPath (compBinDir : GoStr) : List GoStr → PathUpdate
  | [] => .noPathEntry
  | e :: rest =>
    let tokens := goSplitChar '=' e
    if tokens.headI = gs "PATH" then
      match tokens[1]? with
      | some v => .updated ((gs "PATH=" ++ compBinDir ++ gs ":" ++ v) :: rest)
      | none => .panicked
    else
      match replaceFirstPath compBinDir rest with
      | .updated rest2 => .updated (e :: rest2)
      | r => r

/-- The PATH update of InstallStack after a component with a bin
directory: create a fresh PATH entry when the accumulated environment is
empty, otherwise replace the existing PATH entry in place, appending a
fresh one only when none exists. -/
def updateBuildEnvForBin (compBinDir osPath : GoStr) (env : List GoStr) : Option (List GoStr) :=
  if env.length = 0 then some (env ++ [createNewPathForComp compBinDir osPath])
  else
    match replaceFirstPath compBinDir env with
    | .updated env2 => some env2
    | .noPathEntry => some (env ++ [createNewPathForComp compBinDir osPath])
    | .panicked => none

/-- The per-component effect of InstallStack on the accumulated
environment: the PATH update runs only when the component's install
directory exposes bin. -/
def installCompEnvStep (hasBin : Bool) (compBinDir osPath : GoStr)
    (env : List GoStr) : Option (List GoStr) :=
  if hasBin then updateBuildEnvForBin compBinDir osPath env else some env

/-- Two components installed in declared order where only the second
exposes a bin directory: the claimed scenario of C2. -/
def twoCompEnvRun (env0 : List GoStr) (bin2 osPath : GoStr) : Option (List GoStr) :=
  match installCompEnvStep false [] osPath env0 with
  | some env1 => installCompEnvStep true bin2 osPath env1
  | none => none

/-- Entries none of which carry the key PATH. -/
def noPathKey (l : List GoStr) : Prop := ∀ e ∈ l, keyIsPath e = false

/-- Well-formed accumulated environment: at most one entry carries the
key PATH, and such an entry is PATH= followed by a value free of equals
signs. -/
def PathWellFormed (env0 : List GoStr) : Prop :=
  noPathKey env0 ∨
    ∃ l1 v l2, env0 = l1 ++ (gs "PATH=" ++ v) :: l2 ∧
      noPathKey l1 ∧ noPathKey l2 ∧ '=' ∉ v

/-- The inherited tail of the resulting PATH entry: the value of the
pre-existing PATH entry when one exists, otherwise the PATH of the
calling process followed by the literal $PATH. -/
def inheritedPathTail (env0 : List GoStr) (osPath : GoStr) : GoStr :=
  match env0.find? keyIsPath with
  | some e => e.drop (gs "PATH=").length
  | none => osPath ++ gs ":$PATH"

lemma goSplitChar_PATH_start (t : GoStr) :
    goSplitChar '=' (gs "PATH=" ++ t) = gs "PATH" :: goSplitChar '=' t := by
  show goSplitChar '=' ('P' :: 'A' :: 'T' :: 'H' :: '=' :: t) =
    ('P' :: 'A' :: 'T' :: 'H' :: []) :: goSplitChar '=' t
  simp [goSplitChar]

lemma goSplitChar_of_not_mem (sep : Char) (t : GoStr) (h : sep ∉ t) :
    goSplitChar sep t = [t] := by
  induction t with
  | nil => rfl
  | cons c cs ih =>
    have hc : ¬(c = sep) := fun he => h (he ▸ List.mem_cons_self c cs)
    have hcs : sep ∉ cs := fun hm => h (List.mem_cons_of_mem c hm)
    simp [goSplitChar, if_neg hc, ih hcs]

lemma envKey_path_entry (v : GoStr) : envKey (gs "PATH=" ++ v) = gs "PATH" := by
  unfold envKey
  rw [goSplitChar_PATH_start]
  rfl

lemma keyIsPath_path_entry (v : GoStr) : keyIsPath (gs "PATH=" ++ v) = true := by
  simp [keyIsPath, envKey_path_entry]

lemma isPrefixOf_of_append (p t : GoStr) : p.isPrefixOf (p ++ t) = true := by
  rw [List.isPrefixOf_iff_prefix]
  exact List.prefix_append p t

lemma keyIsPath_of_isPrefixOf (e : GoStr) (h : (gs "PATH=").isPrefixOf e = true) :
    keyIsPath e = true := by
  rw [List.isPrefixOf_iff_prefix] at h
  obtain ⟨t, rfl⟩ := h
  exact keyIsPath_path_entry t

lemma not_isPrefixOf_of_not_keyIsPath (e : GoStr) (h : keyIsPath e = false) :
    (gs "PATH=").isPrefixOf e = false := by
  cases hp : (gs "PATH=").isPrefixOf e with
  | false => rfl
  | true => rw [keyIsPath_of_isPrefixOf e hp] at h; cases h

lemma replaceFirstPath_of_noPathKey (b : GoStr) (l : List GoStr) (h : noPathKey l) :
    replaceFirstPath b l = .noPathEntry := by
  induction l with
  | nil => rfl
  | cons e rest ih =>
    have he : ¬((goSplitChar '=' e).headI = gs "PATH") := by
      have hf := h e (List.mem_cons_self e rest)
      simp only [keyIsPath, envKey, beq_eq_false_iff_ne, ne_eq] at hf
      exact hf
    have hrest : noPathKey rest := fun x hx => h x (List.mem_cons_of_mem e hx)
    simp only [replaceFirstPath, if_neg he, ih hrest]

lemma replaceFirstPath_found (b : GoStr) (l1 l2 : List GoStr) (v : GoStr)
    (h1 : noPathKey l1) (hv : '=' ∉ v) :
    replaceFirstPath b (l1 ++ (gs "PATH=" ++ v) :: l2) =
      .updated (l1 ++ (gs "PATH=" ++ b ++ gs ":" ++ v) :: l2) := by
  induction l1 with
  | nil =>
    have htok : goSplitChar '=' (gs "PATH=" ++ v) = [gs "PATH", v] := by
      rw [goSplitChar_PATH_start, goSplitChar_of_not_mem _ _ hv]
    simp only [List.nil_append, replaceFirstPath, htok]
    norm_num
  | cons e rest ih =>
    have he : ¬((goSplitChar '=' e).headI = gs "PATH") := by
      have hf := h1 e (List.mem_cons_self e rest)
      simp only [keyIsPath, envKey, beq_eq_false_iff_ne, ne_eq] at hf
      exact hf
    have hrest : noPathKey rest := fun x hx => h1 x (List.mem_cons_of_mem e hx)
    simp only [List.cons_append, replaceFirstPath, List.append_eq, if_neg he, ih hrest]

lemma isPrefixOf_PATH_createNew (b o : GoStr) :
    (gs "PATH=").isPrefixOf (createNewPathForComp b o) = true := by
  unfold createNewPathForComp
  simp only [List.append_assoc]
  exact isPrefixOf_of_append _ _

lemma isPrefixOf_PATH_newEntry (b v : GoStr) :
    (gs "PATH=").isPrefixOf (gs "PATH=" ++ b ++ gs ":" ++ v) = true := by
  simp only [List.append_assoc]
  exact isPrefixOf_of_append _ _

lemma createNewPathForComp_eq (b o : GoStr) :
    createNewPathForComp b o = gs "PATH=" ++ b ++ gs ":" ++ (o ++ gs ":$PATH") := by
  unfold createNewPathForComp
  simp [List.append_assoc]

lemma find?_keyIsPath_append (l1 l2 : List GoStr) (pe : GoStr)
    (h1 : noPathKey l1) (hpe : keyIsPath pe = true) :
    (l1 ++ pe :: l2).find? keyIsPath = some pe := by
  induction l1 with
  | nil => simp [List.find?_cons, hpe]
  | cons e rest ih =>
    have he := h1 e (List.mem_cons_self e rest)
    have hrest : noPathKey rest := fun x hx => h1 x (List.mem_cons_of_mem e hx)
    simp only [List.cons_append, List.find?_cons, he, ih hrest]

/-- Claim C2: installing two components in declared order where only the
second exposes a bin directory leaves the accumulated build environment
with exactly one entry beginning with PATH=, and that entry is the second
component's bin directory prepended to the environment inherited from the
first component; a pre-existing PATH= entry is replaced in place, never
duplicated. -/
theorem C2_path_accumulation (env0 : List GoStr) (bin2 osPath : GoStr)
    (hwf : PathWellFormed env0) :
    ∃ env2, twoCompEnvRun env0 bin2 osPath = some env2 ∧
      (env2.countP fun e => (gs "PATH=").isPrefixOf e) = 1 ∧
      ∀ e ∈ env2, (gs "PATH=").isPrefixOf e = true →
        e = gs "PATH=" ++ bin2 ++ gs ":" ++ inheritedPathTail env0 osPath := by
  have hrun : twoCompEnvRun env0 bin2 osPath = updateBuildEnvForBin bin2 osPath env0 := rfl
  cases hwf with
  | inl hnone =>
    cases henv : env0 with
    | nil =>
      subst henv
      refine ⟨[createNewPathForComp bin2 osPath], ?_, ?_, ?_⟩
      · rfl
      · simp [List.countP_cons, isPrefixOf_PATH_createNew]
      · intro e he hp
        simp only [List.mem_singleton] at he
        subst he
        rw [createNewPathForComp_eq]
        simp [inheritedPathTail, List.find?]
    | cons x xs =>
      subst henv
      have hlen : ¬((x :: xs).length = 0) := by simp
      have hscan := replaceFirstPath_of_noPathKey bin2 (x :: xs) hnone
      refine ⟨(x :: xs) ++ [createNewPathForComp bin2 osPath], ?_, ?_, ?_⟩
      · rw [hrun]
        unfold updateBuildEnvForBin
        rw [if_neg hlen, hscan]
      · rw [List.countP_append]
        have h0 : ((x :: xs).countP fun e => (gs "PATH=").isPrefixOf e) = 0 := by
          rw [List.countP_eq_zero]
          intro a ha
          simp [not_isPrefixOf_of_not_keyIsPath a (hnone a ha)]
        rw [h0]
        simp [List.countP_cons, isPrefixOf_PATH_createNew]
      · intro e he hp
        rw [List.mem_append] at he
        cases he with
        | inl hin =>
          rw [not_isPrefixOf_of_not_keyIsPath e (hnone e hin)] at hp
          cases hp
        | inr hone =>
          simp only [List.mem_singleton] at hone
          subst hone
          have hfind : (x :: xs).find? keyIsPath = none := by
            rw [List.find?_eq_none]
            intro a ha
            simp [hnone a ha]
          rw [createNewPathForComp_eq]
          simp [inheritedPathTail, hfind]
  | inr hsome =>
    obtain ⟨l1, v, l2, henv, h1, h2, hv⟩ := hsome
    subst henv
    have hlen : ¬((l1 ++ (gs "PATH=" ++ v) :: l2).length = 0) := by simp
    have hscan := replaceFirstPath_found bin2 l1 l2 v h1 hv
    have hfind : (l1 ++ (gs "PATH=" ++ v) :: l2).find? keyIsPath = some (gs "PATH=" ++ v) :=
      find?_keyIsPath_append l1 l2 _ h1 (keyIsPath_path_entry v)
    have htail : inheritedPathTail (l1 ++ (gs "PATH=" ++ v) :: l2) osPath = v := by
      unfold inheritedPathTail
      rw [hfind]
      simp
    refine ⟨l1 ++ (gs "PATH=" ++ bin2 ++ gs ":" ++ v) :: l2, ?_, ?_, ?_⟩
    · rw [hrun]
      unfold updateBuildEnvForBin
      rw [if_neg hlen, hscan]
    · rw [List.countP_append, List.countP_cons]
      have h10 : (l1.countP fun e => (gs "PATH=").isPrefixOf e) = 0 := by
        rw [List.countP_eq_zero]
        intro a ha
        simp [not_isPrefixOf_of_not_keyIsPath a (h1 a ha)]
      have h20 : (l2.countP fun e => (gs "PATH=").isPrefixOf e) = 0 := by
        rw [List.countP_eq_zero]
        intro a ha
        simp [not_isPrefixOf_of_not_keyIsPath a (h2 a ha)]
      rw [h10, h20, isPrefixOf_PATH_newEntry]
      simp
    · intro e he hp
      rw [htail]
      rw [List.mem_append, List.mem_cons] at he
      rcases he with hin | hone | hin
      · rw [not_isPrefixOf_of_not_keyIsPath e (h1 e hin)] at hp
        cases hp
      · exact hone
      · rw [not_isPrefixOf_of_not_keyIsPath e (h2 e hin)] at hp
        cases hp

/-- Witness for claim C2: a concrete inherited environment with one
pre-existing PATH entry, replaced in place by the second component's bin
directory prepended to it. -/
theorem C2_path_accumulation_witness :
    ∃ env2, twoCompEnvRun [gs "CC=gcc", gs "PATH=/usr/bin"]
        (gs "/opt/stack/install/comp2/bin") (gs "/bin") = some env2 ∧
      (env2.countP fun e => (gs "PATH=").isPrefixOf e) = 1 ∧
      ∀ e ∈ env2, (gs "PATH=").isPrefixOf e = true →
        e = gs "PATH=" ++ gs "/opt/stack/install/comp2/bin" ++ gs ":" ++
          inheritedPathTail [gs "CC=gcc", gs "PATH=/usr/bin"] (gs "/bin") :=
  C2_path_accumulation [gs "CC=gcc", gs "PATH=/usr/bin"]
    (gs "/opt/stack/install/comp2/bin") (gs "/bin")
    (Or.inr ⟨[gs "CC=gcc"], gs "/usr/bin", [], by decide,
      by unfold noPathKey; decide, by unfold noPathKey; decide, by decide⟩)

/- ----------------------------------------------------------------- -/
/- Build-system detector and autogen driver: internal/pkg/autotools.  -/
/- ----------------------------------------------------------------- -/

/-- A source tree, abstracted to the names and contents of the files the
detector inspects; names a directory listing gives are distinct. -/
structure SrcTree where
  files : List (GoStr × GoStr)

/-- util.FileExists restricted to the modelled source tree. -/
def fileExists (t : SrcTree) (name : GoStr) : Bool :=
  (t.files.find? (fun p => p.1 == name)).isSome

/-- Content of a file of the modelled source tree, empty when absent. -/
def fileContent (t : SrcTree) (name : GoStr) : GoStr :=
  match t.files.find? (fun p => p.1 == name) with
  | some p => p.2
  | none => []

/-- Config.MakefileHasTarget of internal/pkg/autotools applied to a file
content: whether some line of the content begins with the target followed
by a colon. -/
def makefileHasTarget (target content : GoStr) : Bool :=
  (goSplitChar '\n' content).any (fun line => (target ++ gs ":").isPrefixOf line)

/-- Config.MakefileHasTarget including the file read: a file that cannot
be read yields false. -/
def makefileHasTargetFile (t : SrcTree) (target name : GoStr) : Bool :=
  if fileExists t name then makefileHasTarget target (fileContent t name) else false

/-- The detection flags of autotools.Config: HasAutogen, HasConfigure,
HasMakeInstall and the DetectDone latch. -/
structure DetectFlags where
  hasAutogen : Bool
  hasConfigure : Bool
  hasMakeInstall : Bool
  detectDone : Bool
deriving DecidableEq, Repr

/-- Config.Detect of internal/pkg/autotools on a fresh configuration
(all flags initially false, DetectDone false): check autogen.sh, then
autogen.pl, then configure, then Makefile, first match returning; the
final branch resets the DetectDone latch. -/
def detect (t : SrcTree) : DetectFlags :=
  if fileExists t (gs "autogen.sh") then ⟨true, true, true, true⟩
  else if fileExists t (gs "autogen.pl") then ⟨true, true, true, true⟩
  else if fileExists t (gs "configure") then ⟨false, true, true, true⟩
  else if fileExists t (gs "Makefile") then
    ⟨false, false, makefileHasTargetFile t (gs "install") (gs "Makefile"), true⟩
  else ⟨false, false, false, false⟩

/-- Whether the autogen function of internal/pkg/autotools runs the
autogen script: it returns without running when HasAutogen is unset, and
again without running when HasConfigure is set. -/
def autogenRuns (f : DetectFlags) : Bool := f.hasAutogen && !f.hasConfigure

/-- A source tree holding only a lowercase makefile with an install
target. -/
def lowercaseMakefileTree : SrcTree :=
  ⟨[(gs "makefile", gs "install:\n\tcp prog /usr/local/bin\n")]⟩

/-- Counterexample to claim C5: a tree holding only a lowercase makefile
whose content begins a line with install: is classified with
hasMakeInstallTarget false, because Detect checks the capitalized
spelling Makefile only. -/
theorem C5_counterexample_lowercase_makefile :
    fileExists lowercaseMakefileTree (gs "makefile") = true ∧
    makefileHasTarget (gs "install")
      (fileContent lowercaseMakefileTree (gs "makefile")) = true ∧
    fileExists lowercaseMakefileTree (gs "autogen.sh") = false ∧
    fileExists lowercaseMakefileTree (gs "autogen.pl") = false ∧
    fileExists lowercaseMakefileTree (gs "configure") = false ∧
    (detect lowercaseMakefileTree).hasMakeInstall = false := by
  decide

/-- Claim C5 as amended: Detect classifies by first-match priority over
autogen.sh or autogen.pl, then configure, then the capitalized spelling
Makefile only (a lowercase makefile is not consulted); with a Makefile
present the install flag holds exactly when the file contains a line
beginning with install:, and with none of the files present all three
flags stay false. -/
theorem C5_amended_detect_priority (t : SrcTree) :
    ((fileExists t (gs "autogen.sh") = true ∨ fileExists t (gs "autogen.pl") = true) →
      detect t = ⟨true, true, true, true⟩) ∧
    (fileExists t (gs "autogen.sh") = false → fileExists t (gs "autogen.pl") = false →
      fileExists t (gs "configure") = true →
      detect t = ⟨false, true, true, true⟩) ∧
    (fileExists t (gs "autogen.sh") = false → fileExists t (gs "autogen.pl") = false →
      fileExists t (gs "configure") = false → fileExists t (gs "Makefile") = true →
      detect t = ⟨false, false,
        makefileHasTarget (gs "install") (fileContent t (gs "Makefile")), true⟩) ∧
    (fileExists t (gs "autogen.sh") = false → fileExists t (gs "autogen.pl") = false →
      fileExists t (gs "configure") = false → fileExists t (gs "Makefile") = false →
      detect t = ⟨false, false, false, false⟩) := by
  refine ⟨?_, ?_, ?_, ?_⟩
  · rintro (h | h)
    · simp [detect, h]
    · cases hsh : fileExists t (gs "autogen.sh") with
      | true => simp [detect, hsh]
      | false => simp [detect, hsh, h]
  · intro h1 h2 h3
    simp [detect, h1, h2, h3]
  · intro h1 h2 h3 h4
    simp [detect, h1, h2, h3, h4, makefileHasTargetFile]
  · intro h1 h2 h3 h4
    simp [detect, h1, h2, h3, h4]

/-- Witness for the amended claim C5 at four concrete source trees, one
per branch of the priority order. -/
theorem C5_amended_detect_priority_witness :
    detect ⟨[(gs "autogen.sh", [])]⟩ = ⟨true, true, true, true⟩ ∧
    detect ⟨[(gs "configure", [])]⟩ = ⟨false, true, true, true⟩ ∧
    detect ⟨[(gs "Makefile", gs "install:\n")]⟩ = ⟨false, false,
      makefileHasTarget (gs "install") (fileContent ⟨[(gs "Makefile", gs "install:\n")]⟩
        (gs "Makefile")), true⟩ ∧
    detect ⟨[(gs "README", [])]⟩ = ⟨false, false, false, false⟩ :=
  ⟨(C5_amended_detect_priority ⟨[(gs "autogen.sh", [])]⟩).1 (Or.inl (by decide)),
   (C5_amended_detect_priority ⟨[(gs "configure", [])]⟩).2.1 (by decide) (by decide) (by decide),
   (C5_amended_detect_priority ⟨[(gs "Makefile", gs "install:\n")]⟩).2.2.1
     (by decide) (by decide) (by decide) (by decide),
   (C5_amended_detect_priority ⟨[(gs "README", [])]⟩).2.2.2
     (by decide) (by decide) (by decide) (by decide)⟩

/-- A source tree holding only an autogen.sh script. -/
def autogenOnlyTree : SrcTree := ⟨[(gs "autogen.sh", [])]⟩

/-- Counterexample to claim C6: on a tree holding autogen.sh and no
configure script, detection reports hasAutogen true yet the driver skips
the autogen script (the skip tests the HasConfigure flag, which detection
sets alongside HasAutogen, not the presence of a configure file), so the
driver does not run autogen although no configure script exists. -/
theorem C6_counterexample_autogen_only_tree :
    (detect autogenOnlyTree).hasAutogen = true ∧
    fileExists autogenOnlyTree (gs "configure") = false ∧
    autogenRuns (detect autogenOnlyTree) = false := by
  decide

/-- Claim C6 as amended: the driver runs the autogen script exactly when
HasAutogen is set and HasConfigure is not; detection sets HasConfigure
whenever it sets HasAutogen, so after detection the driver never runs
autogen; in particular a tree holding both autogen.sh and configure is
detected with hasAutogen true and autogen is not re-run. -/
theorem C6_amended_autogen_skip (t : SrcTree) (f : DetectFlags) :
    (autogenRuns f = true ↔ f.hasAutogen = true ∧ f.hasConfigure = false) ∧
    ((detect t).hasAutogen = true → autogenRuns (detect t) = false) ∧
    (fileExists t (gs "autogen.sh") = true → fileExists t (gs "configure") = true →
      (detect t).hasAutogen = true ∧ autogenRuns (detect t) = false) := by
  refine ⟨?_, ?_, ?_⟩
  · unfold autogenRuns
    cases f.hasAutogen <;> cases f.hasConfigure <;> simp
  · intro h
    cases h1 : fileExists t (gs "autogen.sh") <;>
      cases h2 : fileExists t (gs "autogen.pl") <;>
        cases h3 : fileExists t (gs "configure") <;>
          cases h4 : fileExists t (gs "Makefile") <;>
            simp_all [detect, autogenRuns]
  · intro hsh hconf
    constructor
    · simp [detect, hsh]
    · simp [autogenRuns, detect, hsh]

/-- Witness for the amended claim C6: concrete flags, the autogen-only
tree, and a tree holding both autogen.sh and configure. -/
theorem C6_amended_autogen_skip_witness :
    (autogenRuns ⟨true, true, true, true⟩ = true ↔
      (⟨true, true, true, true⟩ : DetectFlags).hasAutogen = true ∧
      (⟨true, true, true, true⟩ : DetectFlags).hasConfigure = false) ∧
    autogenRuns (detect autogenOnlyTree) = false ∧
    ((detect ⟨[(gs "autogen.sh", []), (gs "configure", [])]⟩).hasAutogen = true ∧
      autogenRuns (detect ⟨[(gs "autogen.sh", []), (gs "configure", [])]⟩) = false) :=
  ⟨(C6_amended_autogen_skip autogenOnlyTree ⟨true, true, true, true⟩).1,
   (C6_amended_autogen_skip autogenOnlyTree ⟨true, true, true, true⟩).2.1 (by decide),
   (C6_amended_autogen_skip ⟨[(gs "autogen.sh", []), (gs "configure", [])]⟩
     ⟨true, true, true, true⟩).2.2 (by decide) (by decide)⟩

/- ----------------------------------------------------------------- -/
/- Source unpacking: Info.Unpack of pkg/buildenv.                     -/
/- ----------------------------------------------------------------- -/

/-- Model of filepath.Base for the plain file names and slash-separated
clean paths this repository passes: the last piece of the split around
slashes. -/
def goFilepathBase (p : GoStr) : GoStr := (goSplitChar '/' p).getLastI

/-- The outcomes of Info.Unpack. -/
inductive UnpackOutcome where
  | errBadParams
  | skippedUnknownFormat
  | errUnsupportedFormat
  | errTarFailed
  | errAmbiguous
  | ok (newSrcDir : GoStr)
deriving DecidableEq, Repr

/-- Info.Unpack of pkg/buildenv. External collaborators are passed as
parameters: format and tarArg are the results of util.DetectTarballFormat
and util.GetTarArgs of the external go_util library (empty for an
unrecognized format or unsupported tar argument), tarRunErr records
whether the tar child process failed, and entries is the directory
listing of srcDir after the tar run. Empty parameters produce the
parameter error; an unknown format skips unpacking and keeps srcDir; more
than two entries is the ambiguous-layout error; otherwise srcDir moves to
the first entry differing from the base name of the tarball, staying put
when every entry matches it. -/
def unpack (srcPath buildDir srcDir tarball : GoStr) (format tarArg : GoStr)
    (tarRunErr : Bool) (entries : List GoStr) : UnpackOutcome :=
  if srcPath = [] ∨ buildDir = [] then .errBadParams
  else if format = [] then .skippedUnknownFormat
  else if tarArg = [] then .errUnsupportedFormat
  else if tarRunErr then .errTarFailed
  else if 2 < entries.length then .errAmbiguous
  else
    match entries.find? (fun e => !(e == goFilepathBase tarball)) with
    | some e => .ok (goJoin srcDir e)
    | none => .ok srcDir

lemma length_eq_countP_add_countP_not (p : GoStr → Bool) (l : List GoStr) :
    l.length = l.countP p + l.countP (fun e => !(p e)) := by
  induction l with
  | nil => rfl
  | cons a l ih =>
    rw [List.length_cons, List.countP_cons, List.countP_cons, ih]
    cases hp : p a <;> simp <;> omega

lemma find?_of_filter_singleton (arch d : GoStr) (entries : List GoStr)
    (hf : entries.filter (fun e => !(e == arch)) = [d]) :
    entries.find? (fun e => !(e == arch)) = some d := by
  induction entries with
  | nil => cases hf
  | cons a l ih =>
    rw [List.filter_cons] at hf
    cases ha : (!(a == arch)) with
    | false =>
      rw [ha] at hf
      simp only [Bool.false_eq_true, if_false] at hf
      simp only [List.find?_cons, ha]
      exact ih hf
    | true =>
      rw [ha] at hf
      simp only [eq_self_iff_true, if_true] at hf
      simp only [List.cons.injEq] at hf
      simp only [List.find?_cons, ha]
      rw [hf.1]

lemma countP_beq_le_one_of_nodup (arch : GoStr) (l : List GoStr) (h : l.Nodup) :
    l.countP (fun e => e == arch) ≤ 1 := by
  induction l with
  | nil => simp
  | cons a l ih =>
    rw [List.countP_cons]
    rcases List.nodup_cons.mp h with ⟨ha, hl⟩
    cases hb : (a == arch) with
    | false => simpa using ih hl
    | true =>
      have hnm : arch ∉ l := by
        rw [beq_iff_eq] at hb
        subst hb
        exact ha
      have h0 : l.countP (fun e => e == arch) = 0 := by
        rw [List.countP_eq_zero]
        intro x hx
        simp only [beq_iff_eq]
        intro he
        subst he
        exact hnm hx
      simp [h0, hb]

/-- Claim C7: for a recognized archive format (both the format and the
tar argument resolve, the tar run succeeds), when unpacking leaves
exactly one directory entry besides the archive itself, Unpack succeeds
and srcDir becomes that entry; and when more than one entry besides the
archive results, Unpack fails with the ambiguous-layout error. -/
theorem C7_unpack_single_entry (srcPath buildDir srcDir tarball format tarArg : GoStr)
    (entries : List GoStr) (d : GoStr)
    (hsp : srcPath ≠ []) (hbd : buildDir ≠ [])
    (hfmt : format ≠ []) (harg : tarArg ≠ [])
    (hnd : entries.Nodup)
    (hmem : goFilepathBase tarball ∈ entries) :
    (entries.filter (fun e => !(e == goFilepathBase tarball)) = [d] →
      unpack srcPath buildDir srcDir tarball format tarArg false entries =
        .ok (goJoin srcDir d)) ∧
    (2 ≤ (entries.filter (fun e => !(e == goFilepathBase tarball))).length →
      unpack srcPath buildDir srcDir tarball format tarArg false entries =
        .errAmbiguous) := by
  have harch1 : entries.countP (fun e => e == goFilepathBase tarball) ≤ 1 :=
    countP_beq_le_one_of_nodup _ _ hnd
  have hlen_eq := length_eq_countP_add_countP_not
    (fun e => e == goFilepathBase tarball) entries
  have hfl : entries.countP (fun e => !(e == goFilepathBase tarball))
      = (entries.filter (fun e => !(e == goFilepathBase tarball))).length := by
    rw [List.countP_eq_length_filter]
  constructor
  · intro hf
    have hle : ¬(2 < entries.length) := by
      rw [hlen_eq, hfl, hf]
      simp only [List.length_singleton]
      omega
    unfold unpack
    rw [if_neg (not_or.mpr ⟨hsp, hbd⟩), if_neg hfmt, if_neg harg]
    simp only [Bool.false_eq_true, if_false]
    rw [if_neg hle, find?_of_filter_singleton _ _ _ hf]
  · intro h2
    have harchmem : 0 < entries.countP (fun e => e == goFilepathBase tarball) :=
      List.countP_pos_iff.mpr ⟨_, hmem, by simp⟩
    have hgt : 2 < entries.length := by
      rw [hlen_eq, hfl]
      omega
    unfold unpack
    rw [if_neg (not_or.mpr ⟨hsp, hbd⟩), if_neg hfmt, if_neg harg]
    simp only [Bool.false_eq_true, if_false]
    rw [if_pos hgt]

/-- Witness for claim C7: a tar.gz archive next to one unpacked
directory updates srcDir to that directory, and two extra entries
produce the ambiguous-layout error. -/
theorem C7_unpack_single_entry_witness :
    unpack (gs "/src/x.tar.gz") (gs "/build") (gs "/src") (gs "x.tar.gz")
      (gs "tar.gz") (gs "-xzf") false [gs "x.tar.gz", gs "x-1.0"] =
        .ok (goJoin (gs "/src") (gs "x-1.0")) ∧
    unpack (gs "/src/x.tar.gz") (gs "/build") (gs "/src") (gs "x.tar.gz")
      (gs "tar.gz") (gs "-xzf") false [gs "x.tar.gz", gs "a", gs "b"] =
        .errAmbiguous :=
  ⟨(C7_unpack_single_entry (gs "/src/x.tar.gz") (gs "/build") (gs "/src") (gs "x.tar.gz")
      (gs "tar.gz") (gs "-xzf") [gs "x.tar.gz", gs "x-1.0"] (gs "x-1.0")
      (by decide) (by decide) (by decide) (by decide) (by decide) (by decide)).1 (by decide),
   (C7_unpack_single_entry (gs "/src/x.tar.gz") (gs "/build") (gs "/src") (gs "x.tar.gz")
      (gs "tar.gz") (gs "-xzf") [gs "x.tar.gz", gs "a", gs "b"] (gs "a")
      (by decide) (by decide) (by decide) (by decide) (by decide) (by decide)).2 (by decide)⟩

/- ----------------------------------------------------------------- -/
/- Configure dependency flags: InstallStack with builder and          -/
/- autotools.Configure.                                               -/
/- ----------------------------------------------------------------- -/

/-- One component of a stack definition, restricted to the fields the
configure-argument computation reads. -/
structure CompSpec where
  name : GoStr
  configId : GoStr
  configureDependency : GoStr
  configureParams : GoStr

/-- The configure flag InstallStack builds for one declared dependency:
with-(the dependency's recorded configure id when one exists, else the
raw dependency name)=(the install path recorded for the dependency,
empty when none is recorded). -/
def depFlag (configIds installed : List (GoStr × GoStr)) (dep : GoStr) : GoStr :=
  gs "--with-" ++ (if goMapHas configIds dep then goMapGet configIds dep else dep) ++
    gs "=" ++ goMapGet installed dep

/-- ExtraConfigureArgs as InstallStack accumulates them for one
component: one dependency flag per comma-separated declared dependency,
in order, followed by the space-separated configure parameters. -/
def extraConfigureArgsFor (configIds installed : List (GoStr × GoStr)) (c : CompSpec) :
    List GoStr :=
  (if c.configureDependency = [] then []
   else (goSplitChar ',' c.configureDependency).map (depFlag configIds installed)) ++
  (if c.configureParams = [] then [] else goSplitChar ' ' c.configureParams)

/-- The configure command arguments autotools.Configure assembles:
prefix at the per-component install path, then the extra arguments. -/
def configureCmdArgs (installBase compName : GoStr) (extra : List GoStr) : List GoStr :=
  gs "--prefix" :: goJoin installBase compName :: extra

/-- The per-stack accumulation of InstallStack: the recorded install
paths, the recorded configure ids, and the configure invocation of every
processed component in order. -/
structure StackAccum where
  installed : List (GoStr × GoStr)
  configIds : List (GoStr × GoStr)
  argsLog : List (List GoStr)

/-- One loop iteration of InstallStack restricted to the configure
argument flow: assemble the configure invocation from the maps recorded
so far, then record the component's configure id (only when declared) and
its install path, which is the join of the stack install directory and
the component name. -/
def installStackStep (installBase : GoStr) (acc : StackAccum) (c : CompSpec) : StackAccum :=
  ⟨goMapSet acc.installed c.name (goJoin installBase c.name),
   if c.configId = [] then acc.configIds else goMapSet acc.configIds c.name c.configId,
   acc.argsLog ++ [configureCmdArgs installBase c.name
     (extraConfigureArgsFor acc.configIds acc.installed c)]⟩

/-- The configure invocations of a whole stack processed in declared
order, starting from empty maps; the stack install directory is the join
of the stack base directory and install. -/
def installStackArgs (stackBasedir : GoStr) (cs : List CompSpec) : List (List GoStr) :=
  (cs.foldl (installStackStep (goJoin stackBasedir (gs "install"))) ⟨[], [], []⟩).argsLog

/-- Claim C4: each declared dependency contributes, in declaration
order, one with-flag naming the dependency's configure id when recorded
and its raw name otherwise, valued at the install path recorded when the
component is processed; and in the two-component stack where B depends on
A and A declares no configure id, the configure invocation of B carries
with-A at A's recorded install path. -/
theorem C4_configure_dependency_flags :
    (∀ (configIds installed : List (GoStr × GoStr)) (c : CompSpec) (i : Nat) (dep : GoStr),
      c.configureDependency ≠ [] →
      (goSplitChar ',' c.configureDependency)[i]? = some dep →
      (extraConfigureArgsFor configIds installed c)[i]? =
        some (gs "--with-" ++
          (if goMapHas configIds dep then goMapGet configIds dep else dep) ++
          gs "=" ++ goMapGet installed dep)) ∧
    (∀ (base nA nB : GoStr), nA ≠ [] → ',' ∉ nA →
      (installStackArgs base [⟨nA, [], [], []⟩, ⟨nB, [], nA, []⟩])[1]? =
        some [gs "--prefix", goJoin (goJoin base (gs "install")) nB,
          gs "--with-" ++ nA ++ gs "=" ++ goJoin (goJoin base (gs "install")) nA]) := by
  constructor
  · intro configIds installed c i dep hne hdep
    have hlt : i < (goSplitChar ',' c.configureDependency).length := by
      by_contra hge
      push_neg at hge
      rw [List.getElem?_eq_none hge] at hdep
      cases hdep
    unfold extraConfigureArgsFor
    rw [if_neg hne]
    rw [List.getElem?_append_left (by simpa using hlt)]
    rw [List.getElem?_map, hdep]
    rfl
  · intro base nA nB hA hAc
    have hsplit : goSplitChar ',' nA = [nA] := goSplitChar_of_not_mem ',' nA hAc
    unfold installStackArgs
    rw [List.foldl_cons, List.foldl_cons, List.foldl_nil]
    unfold installStackStep
    simp only [List.nil_append]
    unfold extraConfigureArgsFor
    simp only [eq_self_iff_true, if_true, if_neg hA, hsplit, List.map_cons, List.map_nil,
      List.append_nil, List.nil_append]
    unfold depFlag
    have hhas : goMapHas ([] : List (GoStr × GoStr)) nA = false := rfl
    have hget : goMapGet (goMapSet [] nA (goJoin (goJoin base (gs "install")) nA)) nA =
        goJoin (goJoin base (gs "install")) nA := by
      unfold goMapSet goMapHas goMapGet
      simp [List.find?_cons]
    rw [hhas, hget]
    simp [configureCmdArgs]

/-- Witness for claim C4: a one-dependency component against concrete
maps, and the concrete two-component stack with names A and B. -/
theorem C4_configure_dependency_flags_witness :
    (extraConfigureArgsFor [(gs "A", gs "aid")] [(gs "A", gs "/i/A")]
      ⟨gs "B", [], gs "A", []⟩)[0]? =
      some (gs "--with-" ++
        (if goMapHas [(gs "A", gs "aid")] (gs "A")
         then goMapGet [(gs "A", gs "aid")] (gs "A") else gs "A") ++
        gs "=" ++ goMapGet [(gs "A", gs "/i/A")] (gs "A")) ∧
    (installStackArgs (gs "/s") [⟨gs "A", [], [], []⟩, ⟨gs "B", [], gs "A", []⟩])[1]? =
      some [gs "--prefix", goJoin (goJoin (gs "/s") (gs "install")) (gs "B"),
        gs "--with-" ++ gs "A" ++ gs "=" ++ goJoin (goJoin (gs "/s") (gs "install")) (gs "A")] :=
  ⟨C4_configure_dependency_flags.1 [(gs "A", gs "aid")] [(gs "A", gs "/i/A")]
    ⟨gs "B", [], gs "A", []⟩ 0 (gs "A") (by decide) (by decide),
   C4_configure_dependency_flags.2 (gs "/s") (gs "A") (gs "B") (by decide) (by decide)⟩

/- ----------------------------------------------------------------- -/
/- Builder.Install skip of an already installed application.          -/
/- ----------------------------------------------------------------- -/

/-- The externally visible phases of Builder.Install after the
existence check. -/
inductive BuildAction where
  | getSrc
  | unpackSrc
  | configureApp
  | compileApp
  | installApp
deriving DecidableEq, Repr

/-- Results of the external operations Builder.Install chains when it
installs from scratch: whether each phase fails, and the source locations
the acquisition phases record. -/
structure BuildOps where
  getErr : Bool
  srcPathAfterGet : GoStr
  srcDirAfterGet : GoStr
  unpackErr : Bool
  srcDirAfterUnpack : GoStr
  configureErr : Bool
  compileErr : Bool
  installErr : Bool

/-- What a run of Builder.Install did: whether it failed, which phases
it performed in order, and the final SrcDir of the build environment. -/
structure InstallOutcome where
  failed : Bool
  actions : List BuildAction
  srcDir : GoStr
deriving DecidableEq, Repr

/-- getTargetDir of pkg/buildenv: the join of the base directory and the
application name when one is set, else the directory derived from the URL
(computed by external URL inspection, passed as urlBasedDir), else
empty. -/
def getTargetDir (basedir appName appURL urlBasedDir : GoStr) : GoStr :=
  if appName = [] then (if appURL = [] then [] else urlBasedDir)
  else goJoin basedir appName

/-- Builder.Install of pkg/builder: reject an empty install directory or
URL, compute the per-application install directory (against the
persistent directory when one is set), return success at once when that
directory already exists while pointing SrcDir at it, and otherwise chain
acquisition, unpacking, configuration, compilation and installation,
stopping at the first failure. -/
def builderInstall (installDir srcDir0 persistent appName appURL urlBasedDir : GoStr)
    (pathExists : GoStr → Bool) (ops : BuildOps) : InstallOutcome :=
  if installDir = [] then ⟨true, [], srcDir0⟩
  else if appURL = [] then ⟨true, [], srcDir0⟩
  else if pathExists (getTargetDir (if persistent = [] then installDir else persistent)
      appName appURL urlBasedDir) then
    ⟨false, [], getTargetDir (if persistent = [] then installDir else persistent)
      appName appURL urlBasedDir⟩
  else if ops.getErr then ⟨true, [.getSrc], srcDir0⟩
  else if ops.srcPathAfterGet = [] then ⟨true, [.getSrc], ops.srcDirAfterGet⟩
  else if ops.unpackErr then ⟨true, [.getSrc, .unpackSrc], ops.srcDirAfterGet⟩
  else if ops.configureErr then
    ⟨true, [.getSrc, .unpackSrc, .configureApp], ops.srcDirAfterUnpack⟩
  else if ops.compileErr then
    ⟨true, [.getSrc, .unpackSrc, .configureApp, .compileApp], ops.srcDirAfterUnpack⟩
  else ⟨ops.installErr, [.getSrc, .unpackSrc, .configureApp, .compileApp, .installApp],
    ops.srcDirAfterUnpack⟩

/-- Claim C9: when the computed per-application install directory
already exists, Builder.Install succeeds at once, performs none of the
acquisition, unpacking, configure, compile or install phases, and sets
SrcDir to that existing directory. -/
theorem C9_install_skips_existing
    (installDir srcDir0 persistent appName appURL urlBasedDir : GoStr)
    (pathExists : GoStr → Bool) (ops : BuildOps)
    (hid : installDir ≠ []) (hurl : appURL ≠ [])
    (hex : pathExists (getTargetDir (if persistent = [] then installDir else persistent)
      appName appURL urlBasedDir) = true) :
    builderInstall installDir srcDir0 persistent appName appURL urlBasedDir pathExists ops =
      ⟨false, [], getTargetDir (if persistent = [] then installDir else persistent)
        appName appURL urlBasedDir⟩ := by
  unfold builderInstall
  rw [if_neg hid, if_neg hurl, if_pos hex]

/-- Witness for claim C9 at concrete arguments with an existing install
directory. -/
theorem C9_install_skips_existing_witness :
    builderInstall (gs "/i") (gs "/s0") [] (gs "app") (gs "http://u/x.tar.gz") []
      (fun _ => true) ⟨false, [], [], false, [], false, false, false⟩ =
      ⟨false, [], getTargetDir (if ([] : GoStr) = [] then gs "/i" else [])
        (gs "app") (gs "http://u/x.tar.gz") []⟩ :=
  C9_install_skips_existing (gs "/i") (gs "/s0") [] (gs "app") (gs "http://u/x.tar.gz") []
    (fun _ => true) ⟨false, [], [], false, [], false, false, false⟩
    (by decide) (by decide) rfl

/- ----------------------------------------------------------------- -/
/- The private-stack guard of InstallStack.                           -/
/- ----------------------------------------------------------------- -/

/-- Filesystem and component events a run of InstallStack performs. -/
inductive StackEvent where
  | mkdirInstallRoot
  | mkdirStackBase
  | mkdirScratch
  | mkdirInstallSub
  | mkdirBuildSub
  | mkdirSrcSub
  | installComponent (name : GoStr)
deriving DecidableEq, Repr

/-- What a run of InstallStack did: whether it stopped at the
configuration guard, and the events it performed. -/
structure StackRunOutcome where
  configError : Bool
  events : List StackEvent
deriving DecidableEq, Repr

/-- The directory creations and the install attempt the InstallStack
loop performs for one component on a fresh filesystem. -/
def perComponentEvents (name : GoStr) : List StackEvent :=
  [.mkdirStackBase, .mkdirScratch, .mkdirInstallSub, .mkdirBuildSub, .mkdirSrcSub,
   .installComponent name]

/-- The front of InstallStack of pkg/stack on a loaded configuration and
a fresh filesystem where every creation and install succeeds: the guard
raises the configuration error exactly when the stack definition has
type private and the Private field of the stack data is set (the field
the caller sets with the -private option, declaring the target system
private); otherwise the install root is created and every component is
processed. No directory is created and no component attempted before the
guard. -/
def installStackRun (stackType : GoStr) (callerPrivate : Bool) (comps : List GoStr) :
    StackRunOutcome :=
  if stackType = gs "private" ∧ callerPrivate = true then ⟨true, []⟩
  else ⟨false, .mkdirInstallRoot :: (comps.map perComponentEvents).flatten⟩

/-- Claim C1 evaluated on the code: the guard of InstallStack raises the
configuration error exactly when the stack type is private and the
caller passed the -private option (declared the system private); on the
failing input of a private stack with a public caller the run raises no
error, creates directories and attempts the component, against the
claim. -/
theorem C1_private_guard_behaviour :
    (∀ (stackType : GoStr) (callerPrivate : Bool) (comps : List GoStr),
      (installStackRun stackType callerPrivate comps).configError = true ↔
        stackType = gs "private" ∧ callerPrivate = true) ∧
    (installStackRun (gs "private") false [gs "comp1"]).configError = false ∧
    (installStackRun (gs "private") false [gs "comp1"]).events =
      .mkdirInstallRoot :: perComponentEvents (gs "comp1") ∧
    (installStackRun (gs "private") true [gs "comp1"]) = ⟨true, []⟩ := by
  refine ⟨?_, by decide, by decide, by decide⟩
  intro stackType callerPrivate comps
  by_cases h : stackType = gs "private" ∧ callerPrivate = true
  · simp [installStackRun, h]
  · simp only [installStackRun, if_neg h]
    simpa using h

end GoBuild

